import Mathlib

set_option maxHeartbeats 1000000

/-
Shallow embedding of pwnlib/adb/protocol.py (binjitsu).

Python 2 byte strings are modelled as lists of byte values (List Nat); the
`bytes` helper converts an ASCII Lean string literal to its byte list.  The
underlying TCP channel (pwnlib.tubes.remote, outside src) is modelled as a
scripted byte stream: a Connection holds the bytes the server is still going
to send (`inp`), the transcript of bytes the client has written (`out`), and
whether the handle is open.  Fallible I/O is modelled with Except; state is
threaded through errors, as Python exceptions leave mutations in place.
-/

/-- Byte values of an ASCII string literal (a Python 2 str is a byte string). -/
def bytes (s : String) : List Nat := s.toList.map Char.toNat

/-- Hex digit byte for a value below 16, lowercase, as produced by %x. -/
def hexChar (d : Nat) : Nat := if d < 10 then 48 + d else 87 + d

/-- Hex digits of n, most significant first (fuel-structural; any fuel above n
is enough, and `toHex` supplies n+1). -/
def toHexAux : Nat → Nat → List Nat
  | 0, _ => []
  | fuel+1, n => if n < 16 then [hexChar n] else toHexAux fuel (n / 16) ++ [hexChar (n % 16)]

def toHex (n : Nat) : List Nat := toHexAux (n + 1) n

/-- pack(val) = '%04x' % val: lowercase hex, zero padded to at least four digits
(values of 65536 and above render with more than four digits, as in Python). -/
def pack (val : Nat) : List Nat := List.replicate (4 - (toHex val).length) 48 ++ toHex val

/-- Value of one hex digit byte, accepting 0-9, a-f and A-F as int(-, 16) does. -/
def hexVal (b : Nat) : Option Nat :=
  if 48 ≤ b ∧ b ≤ 57 then some (b - 48)
  else if 97 ≤ b ∧ b ≤ 102 then some (b - 87)
  else if 65 ≤ b ∧ b ≤ 70 then some (b - 55)
  else none

def unpackGo : List Nat → Nat → Option Nat
  | [], acc => some acc
  | b :: bs, acc =>
    match hexVal b with
    | some d => unpackGo bs (16 * acc + d)
    | none => none

/-- unpack(val) = int(val, 16) on a plain string of hex digits (the empty
string is rejected, as int raises ValueError on it). -/
def unpack (bs : List Nat) : Option Nat :=
  match bs with
  | [] => none
  | _ :: _ => unpackGo bs 0

/-- str(Message(string)): the '%04x' length prefix prepended to the payload. -/
def Message (string : List Nat) : List Nat := pack string.length ++ string

def OKAY : List Nat := bytes "OKAY"

def FAIL : List Nat := bytes "FAIL"

/-- Modelled from the spec: pwnlib.util.packing.p32 (outside src), a 32-bit
little-endian binary field (spec §6, sync wire format; the ambient context
endianness defaults to little). -/
def p32 (v : Nat) : List Nat :=
  [v % 256, v / 256 % 256, v / 65536 % 256, v / 16777216 % 256]

/-- Modelled from the spec: tube.u32 (outside src), 32-bit little-endian
unpacking of four received bytes. -/
def u32 (bs : List Nat) : Nat := bs.foldr (fun b acc => b + 256 * acc) 0

/-- str(n) for a nonnegative Python int: decimal digit bytes (fuel-structural). -/
def natDecAux : Nat → Nat → List Nat
  | 0, _ => []
  | fuel+1, n => if n < 10 then [48 + n] else natDecAux fuel (n / 10) ++ [48 + n % 10]

def natDec (n : Nat) : List Nat := natDecAux (n + 1) n

/-- Modelled from the spec: recvExactly on the byte channel (tube.recvn,
outside src): exactly n bytes, or an end-of-stream failure. -/
def recvn : Nat → List Nat → Option (List Nat × List Nat)
  | 0, chan => some ([], chan)
  | _+1, [] => none
  | n+1, b :: chan =>
    match recvn n chan with
    | some (xs, rest) => some (b :: xs, rest)
    | none => none

/-- One Connection: the script of bytes the server will still send, the
transcript of bytes written so far, and whether the handle is open. -/
structure Conn where
  inp : List Nat
  out : List Nat
  isOpen : Bool

/-- Ambient configuration read at call time: the current device id
(context.device). -/
structure Ctx where
  device : List Nat

/-- Session state (Host): the script a newly created Connection will read
from, the optional current Connection (Host._c), and the record of
Connections that have been closed. -/
structure HostSt where
  pending : List Nat
  conn : Option Conn
  graveyard : List Conn

inductive Err where
  | eof
  | valueError
  | logError (msg : String)

/-- Stateful, fallible computations over the session state. -/
def M (α : Type) : Type := HostSt → Except Err α × HostSt

def pureM {α : Type} (a : α) : M α := fun st => (.ok a, st)

def bindM {α β : Type} (x : M α) (f : α → M β) : M β := fun st =>
  match x st with
  | (.ok a, st₁) => f a st₁
  | (.error e, st₁) => (.error e, st₁)

def throwM {α : Type} (e : Err) : M α := fun st => (.error e, st)

/-- Modelled from the spec: log.error (pwnlib.log, outside src) reports the
failure and aborts the operation (spec §4.3, "report failure and abort"; in
the repository log.error raises an exception). -/
def logError {α : Type} (msg : String) : M α := throwM (.logError msg)

def initSt (script : List Nat) : HostSt := ⟨script, none, []⟩

/-- Host.c: the current Connection, created lazily from the pending server
script (remote(self.host, self.port) is outside src and is modelled by the
scripted channel). -/
def getConn (st : HostSt) : Conn × HostSt :=
  match st.conn with
  | some c => (c, st)
  | none => (⟨st.pending, [], true⟩, { st with conn := some ⟨st.pending, [], true⟩ })

def setConn (c : Conn) (st : HostSt) : HostSt := { st with conn := some c }

/-- The close-and-clear step shared by both wrappers:
if self._c: self._c.close(); self._c = None.  Closed handles are recorded in
the graveyard so that closing remains observable after the field is cleared. -/
def closeClear (st : HostSt) : HostSt :=
  match st.conn with
  | some c => { st with conn := none, graveyard := st.graveyard ++ [{ c with isOpen := false }] }
  | none => st

/-- Modelled from the spec: tube.send (outside src): append to the transcript;
sending on a closed handle is a transport failure. -/
def connSend (data : List Nat) : M Unit := fun st =>
  match getConn st with
  | (c, st₁) =>
    if c.isOpen then (.ok (), setConn { c with out := c.out ++ data } st₁)
    else (.error .eof, st₁)

/-- self.c.recvn(n): exactly n bytes from the script, or EOFError. -/
def connRecvn (n : Nat) : M (List Nat) := fun st =>
  match getConn st with
  | (c, st₁) =>
    match recvn n c.inp with
    | some (xs, rest) => (.ok xs, setConn { c with inp := rest } st₁)
    | none => (.error .eof, st₁)

/-- Modelled from the spec: tube.recvall (outside src): everything remaining
on the channel until the peer closes. -/
def recvall : M (List Nat) := fun st =>
  match getConn st with
  | (c, st₁) => (.ok c.inp, setConn { c with inp := [] } st₁)

/-- Connection.adb_send: frame the message, send it, read the 4-byte status. -/
def adb_send (message : List Nat) : M (List Nat) :=
  bindM (connSend (Message message)) (fun _ => connRecvn 4)

/-- Connection.unpack: int(self.recvn(4), 16). -/
def connUnpack : M Nat :=
  bindM (connRecvn 4) (fun bs =>
    match unpack bs with
    | some v => pureM v
    | none => throwM .valueError)

namespace Host

def send (msg : List Nat) : M (List Nat) := adb_send msg

def recvl : M (List Nat) := bindM connUnpack (fun n => connRecvn n)

/-- Host.autoclose: run the body, then close and clear the Connection.  As in
the source (no try/finally), no close happens when the body raises. -/
def autoclose {α : Type} (body : M α) : M α :=
  bindM body (fun rv => fun st => (.ok rv, closeClear st))

def transport (ctx : Ctx) (serial : Option (List Nat)) : M Unit :=
  bindM (send (bytes "host:transport:" ++ serial.getD ctx.device)) (fun r =>
    if r = FAIL then logError "Could not set transport to %r" else pureM ())

/-- Host.with_transport: select the transport, run the body, then the same
close-and-clear step as autoclose. -/
def with_transport {α : Type} (ctx : Ctx) (body : M α) : M α :=
  bindM (transport ctx none) (fun _ =>
    bindM body (fun rv => fun st => (.ok rv, closeClear st)))

def kill : M Unit :=
  autoclose (fun st =>
    match send (bytes "host:kill") st with
    | (.ok _, st₁) => (.ok (), st₁)
    | (.error .eof, st₁) => (.ok (), st₁)
    | (.error e, st₁) => (.error e, st₁))

def version : M (Nat × Nat) :=
  bindM (send (bytes "host:version")) (fun r =>
    if r = OKAY then
      bindM connUnpack (fun a => bindM connUnpack (fun b => pureM (a, b)))
    else logError "Could not fetch version")

def devices (long : Bool) : M (List Nat) :=
  autoclose (
    bindM (send (if long then bytes "host:devices-l" else bytes "host:devices")) (fun r =>
      if r = OKAY then recvl else logError "Could not enumerate devices"))

/-- rv = self._c; self._c = None; return rv. -/
def detach : M (Option Conn) := fun st => (.ok st.conn, { st with conn := none })

/-- ' '.join. -/
def joinSpace : List (List Nat) → List Nat
  | [] => []
  | [x] => x
  | x :: xs => x ++ [32] ++ joinSpace xs

/-- Host.execute.  The shell-quoting collaborator sh_string
(pwnlib.util.misc, outside src) is a parameter, per spec §6; argv is taken as
a list (the source also coerces a single string to a one-element list). -/
def execute (ctx : Ctx) (shString : List Nat → List Nat) (argv : List (List Nat)) :
    M (Option Conn) :=
  autoclose (with_transport ctx (
    bindM (transport ctx (some ctx.device)) (fun _ =>
      bindM (send (bytes "exec:" ++ joinSpace (argv.map shString))) (fun r =>
        if OKAY = r then detach else pureM none))))

/-- Shared shape of the eight fire-and-read commands: send the command,
then drain the channel. -/
def simpleCmd (ctx : Ctx) (cmd : List Nat) : M (List Nat) :=
  autoclose (with_transport ctx (bindM (send cmd) (fun _ => recvall)))

def remount (ctx : Ctx) : M (List Nat) := simpleCmd ctx (bytes "remount:")

def root (ctx : Ctx) : M (List Nat) := simpleCmd ctx (bytes "root:")

def unroot (ctx : Ctx) : M (List Nat) := simpleCmd ctx (bytes "unroot:")

def disable_verity (ctx : Ctx) : M (List Nat) := simpleCmd ctx (bytes "disable-verity:")

def enable_verity (ctx : Ctx) : M (List Nat) := simpleCmd ctx (bytes "enable-verity:")

def reconnect (ctx : Ctx) : M (List Nat) := simpleCmd ctx (bytes "reconnect:")

def reboot (ctx : Ctx) : M (List Nat) := simpleCmd ctx (bytes "reboot:")

def reboot_bootloader (ctx : Ctx) : M (List Nat) := simpleCmd ctx (bytes "reboot:bootloader")

/-- name in ('', '.', '..'). -/
def skipName (n : List Nat) : Bool := n == [] || n == bytes "." || n == bytes ".."

/-- The while loop of Host.list: read a 4-byte tag; on DENT read mode, size,
time (each discarded) and a length-prefixed name, filtering out current and
parent directory entries; any other tag ends the loop. -/
def listLoop : Nat → List Nat → List (List Nat) → Except Err (List (List Nat) × List Nat)
  | 0, _, _ => .error .eof
  | fuel+1, chan, files =>
    match recvn 4 chan with
    | none => .error .eof
    | some (tag, chan₁) =>
      if tag = bytes "DENT" then
        match recvn 4 chan₁ with
        | none => .error .eof
        | some (_mode, chan₂) =>
          match recvn 4 chan₂ with
          | none => .error .eof
          | some (_size, chan₃) =>
            match recvn 4 chan₃ with
            | none => .error .eof
            | some (_time, chan₄) =>
              match recvn 4 chan₄ with
              | none => .error .eof
              | some (nlen, chan₅) =>
                match recvn (u32 nlen) chan₅ with
                | none => .error .eof
                | some (name, chan₆) =>
                  if skipName name then listLoop fuel chan₆ files
                  else listLoop fuel chan₆ (files ++ [name])
      else .ok (files, chan₁)

/-- The loop run on the current Connection with fuel one above the number of
available bytes; every DENT iteration consumes at least twenty bytes, so
this fuel is never exhausted on any channel. -/
def listLoopM : M (List (List Nat)) := fun st =>
  match getConn st with
  | (c, st₁) =>
    match listLoop (c.inp.length + 1) c.inp [] with
    | .ok (files, rest) => (.ok files, setConn { c with inp := rest } st₁)
    | .error e => (.error e, st₁)

/-- Python byte-string comparison: lexicographic order on byte lists. -/
def lexLe : List Nat → List Nat → Bool
  | [], _ => true
  | _ :: _, [] => false
  | a :: as, b :: bs => if a < b then true else if a = b then lexLe as bs else false

def listInsert (x : List Nat) : List (List Nat) → List (List Nat)
  | [] => [x]
  | y :: ys => if lexLe x y then x :: y :: ys else y :: listInsert x ys

/-- sorted(files) on byte strings: lexLe is a total order (antisymmetric), so
the sorted output is the unique lexLe-ordered permutation of the input and
any correct sort agrees with Python's stable sort; insertion sort is used. -/
def pySorted : List (List Nat) → List (List Nat)
  | [] => []
  | x :: xs => listInsert x (pySorted xs)

def list (ctx : Ctx) (path : List Nat) : M (Option (List (List Nat))) :=
  autoclose (with_transport ctx (
    bindM (send (bytes "sync:")) (fun r =>
      if FAIL = r then pureM none
      else
        bindM (connSend (bytes "LIST" ++ p32 path.length ++ path)) (fun _ =>
          bindM listLoopM (fun files => pureM (some (pySorted files)))))))

def write (ctx : Ctx) (path : List Nat) (mode : Nat) : M (Option (List Nat)) :=
  autoclose (with_transport ctx (
    bindM (send (bytes "sync:")) (fun r =>
      if OKAY = r then
        bindM (connSend (bytes "SEND" ++ p32 path.length ++ (path ++ [44] ++ natDec mode)))
          (fun _ =>
            bindM (connSend path) (fun _ =>
              bindM recvall (fun rv => pureM (some rv))))
      else pureM none)))

def read (ctx : Ctx) (path : List Nat) : M (Option (List Nat)) :=
  autoclose (with_transport ctx (
    bindM (send (bytes "sync:")) (fun r =>
      if OKAY = r then
        bindM (connSend (bytes "RECV" ++ p32 path.length)) (fun _ =>
          bindM (connSend path) (fun _ =>
            bindM recvall (fun rv => pureM (some rv))))
      else pureM none)))

end Host

/-- Whether an Except result is a normal return. -/
def isOkE {α : Type} : Except Err α → Bool
  | .ok _ => true
  | .error _ => false

/-- The Connection handed back by execute, when there is one. -/
def returnedConn : Except Err (Option Conn) → Option Conn
  | .ok (some c) => some c
  | _ => none

/-- First component of a normally returned pair. -/
def okFst : Except Err (Nat × Nat) → Option Nat
  | .ok p => some p.1
  | .error _ => none

/-- One DENT record as the server sends it. -/
structure Dent where
  mode : Nat
  size : Nat
  time : Nat
  name : List Nat

def encodeDent (d : Dent) : List Nat :=
  bytes "DENT" ++ p32 d.mode ++ p32 d.size ++ p32 d.time ++ p32 d.name.length ++ d.name

def encodeDents : List Dent → List Nat
  | [] => []
  | d :: ds => encodeDent d ++ encodeDents ds

def ctx0 : Ctx := ⟨bytes "emulator-5554"⟩

def dents0 : List Dent :=
  [⟨493, 10, 0, bytes "a"⟩, ⟨493, 10, 0, bytes "."⟩, ⟨493, 10, 0, bytes "b"⟩,
   ⟨493, 10, 0, bytes ".."⟩, ⟨493, 10, 0, []⟩]

/-
Helper lemmas: frame codec, channel reads, the LIST loop, and sortedness.
-/

theorem unpackGo_append (xs ys : List Nat) (acc : Nat) :
    unpackGo (xs ++ ys) acc =
      match unpackGo xs acc with
      | some a => unpackGo ys a
      | none => none := by
  induction xs generalizing acc with
  | nil => simp [unpackGo]
  | cons b bs ih =>
    simp only [List.cons_append, unpackGo]
    cases hexVal b with
    | none => simp
    | some d => simp [ih]

theorem hexVal_hexChar (d : Nat) (h : d < 16) : hexVal (hexChar d) = some d := by
  interval_cases d <;> decide

theorem toHexAux_unpackGo (fuel : Nat) : ∀ n acc, n < fuel →
    unpackGo (toHexAux fuel n) acc = some (acc * 16 ^ (toHexAux fuel n).length + n) := by
  induction fuel with
  | zero => intro n acc h; omega
  | succ fuel ih =>
    intro n acc h
    by_cases h16 : n < 16
    · simp only [toHexAux, if_pos h16, unpackGo, hexVal_hexChar n h16]
      simp only [List.length_cons, List.length_nil, pow_one, pow_zero]
      congr 1
      omega
    · have hdiv : n / 16 < fuel := by omega
      simp only [toHexAux, if_neg h16]
      rw [unpackGo_append, ih (n / 16) acc hdiv]
      have hmod : n % 16 < 16 := Nat.mod_lt _ (by omega)
      simp only [unpackGo, hexVal_hexChar _ hmod]
      simp only [unpackGo, List.length_append, List.length_cons, List.length_nil]
      congr 1
      rw [pow_succ, ← Nat.mul_assoc]
      generalize acc * 16 ^ (toHexAux fuel (n / 16)).length = u
      omega

theorem toHexAux_length_le (fuel : Nat) : ∀ n k, n < fuel → n < 16 ^ k → 1 ≤ k →
    (toHexAux fuel n).length ≤ k := by
  induction fuel with
  | zero => intro n k h; omega
  | succ fuel ih =>
    intro n k h hk h1
    by_cases h16 : n < 16
    · simp only [toHexAux, if_pos h16, List.length_cons, List.length_nil]
      omega
    · have hdiv : n / 16 < fuel := by omega
      have hk2 : 2 ≤ k := by
        by_contra hc
        have : k = 1 := by omega
        subst this
        simp at hk
        omega
      have hdivk : n / 16 < 16 ^ (k - 1) := by
        have : n < 16 ^ (k - 1) * 16 := by
          have : 16 ^ k = 16 ^ (k - 1) * 16 := by
            have : k - 1 + 1 = k := by omega
            rw [← this, pow_succ]
            simp
          omega
        omega
      have := ih (n / 16) (k - 1) hdiv hdivk (by omega)
      simp only [toHexAux, if_neg h16, List.length_append, List.length_cons, List.length_nil]
      omega

theorem toHex_length_le (n : Nat) (h : n < 65536) : (toHex n).length ≤ 4 :=
  toHexAux_length_le (n + 1) n 4 (by omega) (by norm_num; omega) (by omega)

theorem pack_length (n : Nat) (h : n < 65536) : (pack n).length = 4 := by
  have := toHex_length_le n h
  simp only [pack, List.length_append, List.length_replicate]
  omega

theorem unpackGo_replicate_zero (k : Nat) (ys : List Nat) :
    unpackGo (List.replicate k 48 ++ ys) 0 = unpackGo ys 0 := by
  induction k with
  | zero => simp
  | succ k ih => simpa [List.replicate_succ, unpackGo, hexVal] using ih

theorem unpack_pack (n : Nat) (h : n < 65536) : unpack (pack n) = some n := by
  have hlen := pack_length n h
  have hne : pack n ≠ [] := by
    intro hc
    rw [hc] at hlen
    simp at hlen
  have hgo : unpack (pack n) = unpackGo (pack n) 0 := by
    cases hp : pack n with
    | nil => exact absurd hp hne
    | cons a l => simp [unpack]
  rw [hgo]
  simp only [pack]
  rw [unpackGo_replicate_zero]
  have := toHexAux_unpackGo (n + 1) n 0 (by omega)
  simpa [toHex] using this

theorem take_append_of_length (xs ys : List Nat) (n : Nat) (h : xs.length = n) :
    (xs ++ ys).take n = xs := by
  subst h
  simp [List.take_left]

theorem bytes_OKAY : bytes "OKAY" = [79, 75, 65, 89] := rfl

theorem bytes_FAIL : bytes "FAIL" = [70, 65, 73, 76] := rfl

theorem bytes_DENT : bytes "DENT" = [68, 69, 78, 84] := rfl

theorem bytes_DONE : bytes "DONE" = [68, 79, 78, 69] := rfl

theorem recvn_exact (xs ys : List Nat) : recvn xs.length (xs ++ ys) = some (xs, ys) := by
  induction xs with
  | nil => simp [recvn]
  | cons b bs ih => simp [recvn, ih]

theorem recvn_of_le (n : Nat) : ∀ chan : List Nat, n ≤ chan.length →
    recvn n chan = some (chan.take n, chan.drop n) := by
  induction n with
  | zero => intro chan h; simp [recvn]
  | succ n ih =>
    intro chan h
    cases chan with
    | nil => simp at h
    | cons b cs =>
      simp only [List.length_cons, Nat.succ_le_succ_iff] at h
      simp [recvn, ih cs h]

theorem recvn_p32 (v : Nat) (ys : List Nat) : recvn 4 (p32 v ++ ys) = some (p32 v, ys) := rfl

theorem recvn_DENT (ys : List Nat) :
    recvn 4 (bytes "DENT" ++ ys) = some (bytes "DENT", ys) := rfl

theorem u32_p32 (n : Nat) (h : n < 4294967296) : u32 (p32 n) = n := by
  simp only [u32, p32, List.foldr]
  omega

theorem autoclose_ok {α : Type} (body : M α) (st : HostSt)
    (h : isOkE (Host.autoclose body st).1 = true) :
    (Host.autoclose body st).2.conn = none := by
  unfold Host.autoclose bindM at *
  rcases hb : body st with ⟨r, st₁⟩
  cases r with
  | ok a => cases hc : st₁.conn <;> simp [closeClear, hc]
  | error e =>
    rw [hb] at h
    simp [isOkE] at h

theorem listLoop_dent (fuel : Nat) (d : Dent) (X : List Nat) (files : List (List Nat))
    (h : d.name.length < 4294967296) :
    Host.listLoop (fuel + 1) (encodeDent d ++ X) files =
      if Host.skipName d.name then Host.listLoop fuel X files
      else Host.listLoop fuel X (files ++ [d.name]) := by
  simp only [encodeDent, List.append_assoc]
  simp only [Host.listLoop, recvn_DENT, recvn_p32, u32_p32 d.name.length h, recvn_exact]
  simp

theorem listLoop_records : ∀ (ds : List Dent) (fuel : Nat) (files : List (List Nat))
    (tail : List Nat), (∀ d ∈ ds, d.name.length < 4294967296) → 4 ≤ tail.length →
    tail.take 4 ≠ bytes "DENT" → ds.length < fuel →
    Host.listLoop fuel (encodeDents ds ++ tail) files =
      .ok (files ++ (ds.map Dent.name).filter (fun n => !Host.skipName n), tail.drop 4) := by
  intro ds
  induction ds with
  | nil =>
    intro fuel files tail _ hlen htag hfuel
    cases fuel with
    | zero => omega
    | succ f =>
      simp only [encodeDents, List.nil_append, Host.listLoop, recvn_of_le 4 tail hlen]
      simp [htag]
  | cons d ds ih =>
    intro fuel files tail hname hlen htag hfuel
    cases fuel with
    | zero => simp at hfuel
    | succ f =>
      have hd : d.name.length < 4294967296 := hname d (by simp)
      have hds : ∀ e ∈ ds, e.name.length < 4294967296 := fun e he => hname e (by simp [he])
      have hf : ds.length < f := by simp at hfuel; omega
      simp only [encodeDents, List.append_assoc]
      rw [listLoop_dent f d (encodeDents ds ++ tail) files hd]
      by_cases hskip : Host.skipName d.name
      · rw [if_pos hskip, ih f files tail hds hlen htag hf]
        simp [hskip]
      · rw [if_neg hskip, ih f (files ++ [d.name]) tail hds hlen htag hf]
        simp [hskip]

theorem encodeDent_length_pos (d : Dent) : 1 ≤ (encodeDent d).length := by
  simp [encodeDent, bytes, p32]

theorem encodeDents_length_ge : ∀ ds : List Dent, ds.length ≤ (encodeDents ds).length := by
  intro ds
  induction ds with
  | nil => simp [encodeDents]
  | cons d ds ih =>
    have := encodeDent_length_pos d
    simp only [encodeDents, List.length_append, List.length_cons]
    omega

theorem listLoopM_spec (ds : List Dent) (tail pend trace : List Nat) (grave : List Conn)
    (hname : ∀ d ∈ ds, d.name.length < 4294967296) (hlen : 4 ≤ tail.length)
    (htag : tail.take 4 ≠ bytes "DENT") :
    Host.listLoopM ⟨pend, some ⟨encodeDents ds ++ tail, trace, true⟩, grave⟩ =
      (.ok ((ds.map Dent.name).filter (fun n => !Host.skipName n)),
        ⟨pend, some ⟨tail.drop 4, trace, true⟩, grave⟩) := by
  have hfuel : ds.length < (encodeDents ds ++ tail).length + 1 := by
    have := encodeDents_length_ge ds
    simp only [List.length_append]
    omega
  have h := listLoop_records ds ((encodeDents ds ++ tail).length + 1) [] tail hname hlen htag
    hfuel
  simp only [Host.listLoopM, getConn, setConn, h, List.nil_append]

theorem lexLe_total : ∀ a b : List Nat, Host.lexLe a b = true ∨ Host.lexLe b a = true := by
  intro a
  induction a with
  | nil => intro b; left; rfl
  | cons x xs ih =>
    intro b
    cases b with
    | nil => right; rfl
    | cons y ys =>
      rcases Nat.lt_trichotomy x y with h | h | h
      · left; simp [Host.lexLe, h]
      · subst h
        rcases ih ys with hl | hl
        · left; simp [Host.lexLe, hl]
        · right; simp [Host.lexLe, hl]
      · right; simp [Host.lexLe, h]

theorem mem_listInsert (a x : List Nat) : ∀ l : List (List Nat),
    a ∈ Host.listInsert x l ↔ a = x ∨ a ∈ l := by
  intro l
  induction l with
  | nil => simp [Host.listInsert]
  | cons y ys ih =>
    by_cases h : Host.lexLe x y
    · simp [Host.listInsert, h]
    · simp only [Host.listInsert, if_neg h, List.mem_cons, ih]
      tauto

theorem lexLe_trans : ∀ a b c : List Nat, Host.lexLe a b = true → Host.lexLe b c = true →
    Host.lexLe a c = true := by
  intro a
  induction a with
  | nil => intro b c _ _; rfl
  | cons x xs ih =>
    intro b c hab hbc
    cases b with
    | nil => simp [Host.lexLe] at hab
    | cons y ys =>
      cases c with
      | nil => simp [Host.lexLe] at hbc
      | cons z zs =>
        simp only [Host.lexLe] at hab hbc ⊢
        by_cases hxy : x < y
        · by_cases hyz : y < z
          · have : x < z := by omega
            simp [this]
          · simp only [if_neg hyz] at hbc
            by_cases hyz2 : y = z
            · subst hyz2; simp [hxy]
            · simp [hyz2] at hbc
        · simp only [if_neg hxy] at hab
          by_cases hxy2 : x = y
          · subst hxy2
            simp only [if_pos rfl] at hab
            by_cases hxz : x < z
            · simp [hxz]
            · simp only [if_neg hxz]
              by_cases hxz2 : x = z
              · subst hxz2
                simp only [if_neg hxz] at hbc
                simp only [if_pos rfl] at hbc ⊢
                exact ih ys zs hab hbc
              · simp only [if_neg hxz, if_neg hxz2] at hbc
                simp at hbc
          · simp [hxy2] at hab

theorem pairwise_listInsert (x : List Nat) : ∀ l : List (List Nat),
    l.Pairwise (fun a b => Host.lexLe a b = true) →
    (Host.listInsert x l).Pairwise (fun a b => Host.lexLe a b = true) := by
  intro l
  induction l with
  | nil => intro _; simp [Host.listInsert]
  | cons y ys ih =>
    intro h
    rcases List.pairwise_cons.mp h with ⟨hy, hys⟩
    by_cases hle : Host.lexLe x y
    · simp only [Host.listInsert, if_pos hle]
      refine List.pairwise_cons.mpr ⟨?_, h⟩
      intro a ha
      rcases List.mem_cons.mp ha with rfl | ha
      · exact hle
      · exact lexLe_trans x y a hle (hy a ha)
    · have hyx : Host.lexLe y x = true := (lexLe_total x y).resolve_left (by simpa using hle)
      simp only [Host.listInsert, if_neg hle]
      refine List.pairwise_cons.mpr ⟨?_, ih hys⟩
      intro a ha
      rcases (mem_listInsert a x ys).mp ha with rfl | ha
      · exact hyx
      · exact hy a ha

theorem pySorted_pairwise : ∀ l : List (List Nat),
    (Host.pySorted l).Pairwise (fun a b => Host.lexLe a b = true) := by
  intro l
  induction l with
  | nil => simp [Host.pySorted]
  | cons x xs ih => exact pairwise_listInsert x (Host.pySorted xs) ih

theorem listInsert_perm (x : List Nat) : ∀ l : List (List Nat),
    (Host.listInsert x l).Perm (x :: l) := by
  intro l
  induction l with
  | nil => simp [Host.listInsert]
  | cons y ys ih =>
    by_cases hle : Host.lexLe x y
    · simp [Host.listInsert, hle]
    · simp only [Host.listInsert, if_neg hle]
      exact (ih.cons y).trans (List.Perm.swap x y ys)

theorem pySorted_perm : ∀ l : List (List Nat), (Host.pySorted l).Perm l := by
  intro l
  induction l with
  | nil => simp [Host.pySorted]
  | cons x xs ih =>
    exact (listInsert_perm x (Host.pySorted xs)).trans (ih.cons x)

/-
Claims.
-/

/-- Claim C1: for every payload byte string p with len(p) < 65536, encoding p
as a Frame (four lowercase zero-padded hex digits of the length, then p) and
decoding the first four bytes of the result as a hex length recovers exactly
len(p). -/
theorem c1_frame_length_roundtrip (p : List Nat) (h : p.length < 65536) :
    unpack ((Message p).take 4) = some p.length := by
  unfold Message
  rw [take_append_of_length _ _ _ (pack_length p.length h)]
  exact unpack_pack p.length h

/-- Witness for C1 at the concrete payload "abc". -/
theorem c1_frame_length_roundtrip_witness :
    unpack ((Message (bytes "abc")).take 4) = some (bytes "abc").length :=
  c1_frame_length_roundtrip (bytes "abc") (by decide)

/-- Counterexample to claim C2 as stated: version() is a public Session
operation other than execute, yet after it returns normally (server script
OKAY 0004 0001) the Session still holds an open Connection. -/
theorem c2_version_leaves_connection_open :
    isOkE (Host.version (initSt (bytes "OKAY00040001"))).1 = true ∧
      (Host.version (initSt (bytes "OKAY00040001"))).2.conn.map Conn.isOpen = some true := by
  constructor <;> rfl

/-- Claim C2 amended: every public Session operation that is wrapped in
autoclose (kill, devices, and the with-transport commands remount, root,
unroot, disable_verity, enable_verity, reconnect, reboot, reboot_bootloader,
list, write, read) holds no Connection after a normal return; version and
transport are not wrapped and can leave the Connection open, and no close
happens on an exceptional exit. -/
theorem c2_autoclosed_ops_clear_connection :
    (∀ st, isOkE (Host.kill st).1 = true → (Host.kill st).2.conn = none) ∧
      (∀ long st, isOkE (Host.devices long st).1 = true → (Host.devices long st).2.conn = none) ∧
      (∀ ctx st, isOkE (Host.remount ctx st).1 = true → (Host.remount ctx st).2.conn = none) ∧
      (∀ ctx st, isOkE (Host.root ctx st).1 = true → (Host.root ctx st).2.conn = none) ∧
      (∀ ctx st, isOkE (Host.unroot ctx st).1 = true → (Host.unroot ctx st).2.conn = none) ∧
      (∀ ctx st, isOkE (Host.disable_verity ctx st).1 = true →
        (Host.disable_verity ctx st).2.conn = none) ∧
      (∀ ctx st, isOkE (Host.enable_verity ctx st).1 = true →
        (Host.enable_verity ctx st).2.conn = none) ∧
      (∀ ctx st, isOkE (Host.reconnect ctx st).1 = true → (Host.reconnect ctx st).2.conn = none) ∧
      (∀ ctx st, isOkE (Host.reboot ctx st).1 = true → (Host.reboot ctx st).2.conn = none) ∧
      (∀ ctx st, isOkE (Host.reboot_bootloader ctx st).1 = true →
        (Host.reboot_bootloader ctx st).2.conn = none) ∧
      (∀ ctx path st, isOkE (Host.list ctx path st).1 = true →
        (Host.list ctx path st).2.conn = none) ∧
      (∀ ctx path mode st, isOkE (Host.write ctx path mode st).1 = true →
        (Host.write ctx path mode st).2.conn = none) ∧
      (∀ ctx path st, isOkE (Host.read ctx path st).1 = true →
        (Host.read ctx path st).2.conn = none) :=
  ⟨fun st h => autoclose_ok _ st h,
   fun _ st h => autoclose_ok _ st h,
   fun _ st h => autoclose_ok _ st h,
   fun _ st h => autoclose_ok _ st h,
   fun _ st h => autoclose_ok _ st h,
   fun _ st h => autoclose_ok _ st h,
   fun _ st h => autoclose_ok _ st h,
   fun _ st h => autoclose_ok _ st h,
   fun _ st h => autoclose_ok _ st h,
   fun _ st h => autoclose_ok _ st h,
   fun _ _ st h => autoclose_ok _ st h,
   fun _ _ _ st h => autoclose_ok _ st h,
   fun _ _ st h => autoclose_ok _ st h⟩

/-- Witness for C2 amended: kill on a server answering OKAY returns with the
Connection cleared. -/
theorem c2_autoclosed_ops_clear_connection_witness :
    (Host.kill (initSt (bytes "OKAY"))).2.conn = none :=
  c2_autoclosed_ops_clear_connection.1 (initSt (bytes "OKAY")) (by decide)

/-- Claim C3: execute(argv) on OKAY returns the live Connection (still open),
clears the Session field so the wrappers do not close it (the record of
closed handles stays empty), while every other device-scoped command closes
its Connection and clears the field. -/
theorem c3_execute_detaches_connection_siblings_close :
    (∀ ctx sh argv rest,
        (returnedConn (Host.execute ctx sh argv
              (initSt (bytes "OKAY" ++ bytes "OKAY" ++ bytes "OKAY" ++ rest))).1).map
            Conn.isOpen = some true ∧
          (Host.execute ctx sh argv
              (initSt (bytes "OKAY" ++ bytes "OKAY" ++ bytes "OKAY" ++ rest))).2.conn = none ∧
          (Host.execute ctx sh argv
              (initSt (bytes "OKAY" ++ bytes "OKAY" ++ bytes "OKAY" ++ rest))).2.graveyard = []) ∧
      (∀ ctx rest,
        (Host.remount ctx (initSt (bytes "OKAY" ++ bytes "OKAY" ++ rest))).2.conn = none ∧
          (Host.remount ctx (initSt (bytes "OKAY" ++ bytes "OKAY" ++ rest))).2.graveyard.map
            Conn.isOpen = [false]) ∧
      (∀ ctx rest,
        (Host.root ctx (initSt (bytes "OKAY" ++ bytes "OKAY" ++ rest))).2.conn = none ∧
          (Host.root ctx (initSt (bytes "OKAY" ++ bytes "OKAY" ++ rest))).2.graveyard.map
            Conn.isOpen = [false]) ∧
      (∀ ctx rest,
        (Host.unroot ctx (initSt (bytes "OKAY" ++ bytes "OKAY" ++ rest))).2.conn = none ∧
          (Host.unroot ctx (initSt (bytes "OKAY" ++ bytes "OKAY" ++ rest))).2.graveyard.map
            Conn.isOpen = [false]) ∧
      (∀ ctx rest,
        (Host.disable_verity ctx (initSt (bytes "OKAY" ++ bytes "OKAY" ++ rest))).2.conn = none ∧
          (Host.disable_verity ctx
              (initSt (bytes "OKAY" ++ bytes "OKAY" ++ rest))).2.graveyard.map
            Conn.isOpen = [false]) ∧
      (∀ ctx rest,
        (Host.enable_verity ctx (initSt (bytes "OKAY" ++ bytes "OKAY" ++ rest))).2.conn = none ∧
          (Host.enable_verity ctx
              (initSt (bytes "OKAY" ++ bytes "OKAY" ++ rest))).2.graveyard.map
            Conn.isOpen = [false]) ∧
      (∀ ctx rest,
        (Host.reconnect ctx (initSt (bytes "OKAY" ++ bytes "OKAY" ++ rest))).2.conn = none ∧
          (Host.reconnect ctx (initSt (bytes "OKAY" ++ bytes "OKAY" ++ rest))).2.graveyard.map
            Conn.isOpen = [false]) ∧
      (∀ ctx rest,
        (Host.reboot ctx (initSt (bytes "OKAY" ++ bytes "OKAY" ++ rest))).2.conn = none ∧
          (Host.reboot ctx (initSt (bytes "OKAY" ++ bytes "OKAY" ++ rest))).2.graveyard.map
            Conn.isOpen = [false]) ∧
      (∀ ctx rest,
        (Host.reboot_bootloader ctx (initSt (bytes "OKAY" ++ bytes "OKAY" ++ rest))).2.conn =
            none ∧
          (Host.reboot_bootloader ctx
              (initSt (bytes "OKAY" ++ bytes "OKAY" ++ rest))).2.graveyard.map
            Conn.isOpen = [false]) ∧
      (∀ ctx path,
        (Host.list ctx path
              (initSt (bytes "OKAY" ++ bytes "OKAY" ++ bytes "DONE"))).2.conn = none ∧
          (Host.list ctx path
              (initSt (bytes "OKAY" ++ bytes "OKAY" ++ bytes "DONE"))).2.graveyard.map
            Conn.isOpen = [false]) ∧
      (∀ ctx path mode rest,
        (Host.write ctx path mode
              (initSt (bytes "OKAY" ++ bytes "OKAY" ++ rest))).2.conn = none ∧
          (Host.write ctx path mode
              (initSt (bytes "OKAY" ++ bytes "OKAY" ++ rest))).2.graveyard.map
            Conn.isOpen = [false]) ∧
      (∀ ctx path,
        (Host.read ctx path (initSt (bytes "OKAY" ++ bytes "OKAY"))).2.conn = none ∧
          (Host.read ctx path (initSt (bytes "OKAY" ++ bytes "OKAY"))).2.graveyard.map
            Conn.isOpen = [false]) := by
  refine ⟨fun ctx sh argv rest => ?_, fun ctx rest => ?_, fun ctx rest => ?_, fun ctx rest => ?_,
    fun ctx rest => ?_, fun ctx rest => ?_, fun ctx rest => ?_, fun ctx rest => ?_,
    fun ctx rest => ?_, fun ctx path => ?_, fun ctx path mode rest => ?_, fun ctx path => ?_⟩ <;>
    simp [Host.execute, Host.remount, Host.root, Host.unroot, Host.disable_verity,
      Host.enable_verity, Host.reconnect, Host.reboot, Host.reboot_bootloader, Host.simpleCmd,
      Host.list, Host.write, Host.read, Host.with_transport, Host.transport, Host.send, adb_send,
      bindM, connSend, connRecvn, recvall, getConn, setConn, initSt, logError, throwM, pureM,
      bytes_OKAY, bytes_FAIL, bytes_DENT, bytes_DONE, recvn, FAIL, OKAY, Host.detach,
      Host.autoclose, closeClear, returnedConn, Host.listLoopM, Host.listLoop, Host.skipName,
      u32, p32, Host.pySorted, Host.listInsert, Host.lexLe, natDec, natDecAux]

/-- Claim C4 evaluation at the failing input path = "/x", mode = 493 (0o755):
after sync: OKAY the code emits tag SEND, then the 32-bit field p32(len(path))
= p32(2), then the header string "/x,493" (length 6), then the raw path, and
returns the channel remainder; the emitted length field is the length of the
path, not of the path-comma-mode string the claim (and the ADB sync protocol)
requires. -/
theorem c4_write_sends_path_length_not_header_length :
    (Host.write ctx0 (bytes "/x") 493 (initSt (bytes "OKAY" ++ bytes "OKAY"))).1 =
        .ok (some []) ∧
      (Host.write ctx0 (bytes "/x") 493
          (initSt (bytes "OKAY" ++ bytes "OKAY"))).2.graveyard.map Conn.out =
        [Message (bytes "host:transport:" ++ ctx0.device) ++ Message (bytes "sync:") ++
          bytes "SEND" ++ p32 (bytes "/x").length ++
          (bytes "/x" ++ [44] ++ natDec 493) ++ bytes "/x"] ∧
      (bytes "/x").length ≠ (bytes "/x" ++ [44] ++ natDec 493).length :=
  ⟨rfl, rfl, by decide⟩

/-- Counterexample to claim C5 as stated: list() on a sync: negotiation status
"WXYZ" (neither OKAY nor FAIL) does not abort: it writes its LIST request on
the channel after the negotiation. -/
theorem c5_list_proceeds_on_non_okay_status :
    (Host.list ctx0 (bytes "x") (initSt (bytes "OKAY" ++ bytes "WXYZ"))).1 = .error .eof ∧
      (Host.list ctx0 (bytes "x")
          (initSt (bytes "OKAY" ++ bytes "WXYZ"))).2.conn.map Conn.out =
        some (Message (bytes "host:transport:" ++ ctx0.device) ++ Message (bytes "sync:") ++
          bytes "LIST" ++ p32 (bytes "x").length ++ bytes "x") :=
  ⟨rfl, rfl⟩

/-- Claim C5 amended: write and read write their sync request only when the
sync: negotiation returns OKAY (any other 4-byte status aborts with no
further writes and an absent result); list aborts with no further writes when
the negotiation returns exactly FAIL, but a non-OKAY, non-FAIL status does
not abort it. -/
theorem c5_sync_negotiation_gating :
    (∀ ctx path mode status rest, status.length = 4 → OKAY ≠ status →
        (Host.write ctx path mode (initSt (bytes "OKAY" ++ (status ++ rest)))).1 = .ok none ∧
          (Host.write ctx path mode
              (initSt (bytes "OKAY" ++ (status ++ rest)))).2.graveyard.map Conn.out =
            [Message (bytes "host:transport:" ++ ctx.device) ++ Message (bytes "sync:")]) ∧
      (∀ ctx path status rest, status.length = 4 → OKAY ≠ status →
        (Host.read ctx path (initSt (bytes "OKAY" ++ (status ++ rest)))).1 = .ok none ∧
          (Host.read ctx path
              (initSt (bytes "OKAY" ++ (status ++ rest)))).2.graveyard.map Conn.out =
            [Message (bytes "host:transport:" ++ ctx.device) ++ Message (bytes "sync:")]) ∧
      (∀ ctx path rest,
        (Host.list ctx path (initSt (bytes "OKAY" ++ (bytes "FAIL" ++ rest)))).1 = .ok none ∧
          (Host.list ctx path
              (initSt (bytes "OKAY" ++ (bytes "FAIL" ++ rest)))).2.graveyard.map Conn.out =
            [Message (bytes "host:transport:" ++ ctx.device) ++ Message (bytes "sync:")]) := by
  refine ⟨fun ctx path mode status rest hlen hne => ?_,
    fun ctx path status rest hlen hne => ?_, fun ctx path rest => ?_⟩ <;>
  · first
    | (have h4 : recvn 4 (status ++ rest) = some (status, rest) := by
        rw [← hlen]; exact recvn_exact status rest
       simp only [OKAY, bytes_OKAY] at hne
       simp [Host.write, Host.read, Host.with_transport, Host.transport, Host.send, adb_send,
         bindM, connSend, connRecvn, getConn, setConn, initSt, pureM, bytes_OKAY, bytes_FAIL,
         recvn, FAIL, OKAY, Host.autoclose, closeClear, h4, hne])
    | simp [Host.list, Host.with_transport, Host.transport, Host.send, adb_send,
        bindM, connSend, connRecvn, getConn, setConn, initSt, pureM, bytes_OKAY, bytes_FAIL,
        recvn, FAIL, OKAY, Host.autoclose, closeClear]

/-- Witness for C5 amended: write aborts on the non-OKAY status FAIL. -/
theorem c5_sync_negotiation_gating_witness :
    (Host.write ctx0 (bytes "/x") 493
          (initSt (bytes "OKAY" ++ (bytes "FAIL" ++ [])))).1 = .ok none ∧
      (Host.write ctx0 (bytes "/x") 493
          (initSt (bytes "OKAY" ++ (bytes "FAIL" ++ [])))).2.graveyard.map Conn.out =
        [Message (bytes "host:transport:" ++ ctx0.device) ++ Message (bytes "sync:")] :=
  c5_sync_negotiation_gating.1 ctx0 (bytes "/x") 493 (bytes "FAIL") [] (by decide) (by decide)

/-- Claim C6: for every with-transport-wrapped command body, when the
transport-selection step receives FAIL the wrapped body never runs: the
operation aborts through the error reporter and the transcript of the
Connection holds exactly the one transport frame, with nothing of the body
written. -/
theorem c6_transport_fail_prevents_body {α : Type} (body : M α) (ctx : Ctx)
    (rest : List Nat) :
    (Host.with_transport ctx body (initSt (bytes "FAIL" ++ rest))).1 =
        .error (.logError "Could not set transport to %r") ∧
      (Host.with_transport ctx body (initSt (bytes "FAIL" ++ rest))).2.conn.map Conn.out =
        some (Message (bytes "host:transport:" ++ ctx.device)) ∧
      (Host.with_transport ctx body (initSt (bytes "FAIL" ++ rest))).2.graveyard = [] := by
  simp [Host.with_transport, Host.transport, Host.send, adb_send, bindM, connSend, connRecvn,
    getConn, setConn, initSt, logError, throwM, pureM, bytes_FAIL, recvn, FAIL]

/-- Counterexample to claim C7 as stated: devices() on a FAIL status does not
return an absent result; it aborts through the error reporter (in the
repository, log.error raises). -/
theorem c7_devices_fail_is_exceptional :
    isOkE (Host.devices false (initSt (bytes "FAIL"))).1 = false ∧
      (Host.devices false (initSt (bytes "FAIL"))).1 =
        .error (.logError "Could not enumerate devices") :=
  ⟨rfl, rfl⟩

/-- Claim C7 amended: the commands that check FAIL explicitly (kill, execute,
list, write, read) handle a FAIL status without throwing and return an absent
result; version, devices and transport route FAIL through the error reporter,
which aborts the operation instead of returning. -/
theorem c7_fail_handling_by_command :
    (Host.kill (initSt (bytes "FAIL"))).1 = .ok () ∧
      (Host.kill (initSt [])).1 = .ok () ∧
      (∀ ctx sh argv,
        (Host.execute ctx sh argv
            (initSt (bytes "OKAY" ++ bytes "OKAY" ++ bytes "FAIL"))).1 = .ok none) ∧
      (∀ ctx path,
        (Host.list ctx path (initSt (bytes "OKAY" ++ bytes "FAIL"))).1 = .ok none) ∧
      (∀ ctx path mode,
        (Host.write ctx path mode (initSt (bytes "OKAY" ++ bytes "FAIL"))).1 = .ok none) ∧
      (∀ ctx path,
        (Host.read ctx path (initSt (bytes "OKAY" ++ bytes "FAIL"))).1 = .ok none) ∧
      (Host.version (initSt (bytes "FAIL"))).1 =
        .error (.logError "Could not fetch version") ∧
      (Host.devices false (initSt (bytes "FAIL"))).1 =
        .error (.logError "Could not enumerate devices") ∧
      (∀ ctx, (Host.transport ctx none (initSt (bytes "FAIL"))).1 =
        .error (.logError "Could not set transport to %r")) := by
  refine ⟨rfl, rfl, fun ctx sh argv => ?_, fun ctx path => ?_, fun ctx path mode => ?_,
    fun ctx path => ?_, rfl, rfl, fun ctx => ?_⟩ <;>
    simp [Host.execute, Host.list, Host.write, Host.read, Host.with_transport, Host.transport,
      Host.send, adb_send, bindM, connSend, connRecvn, getConn, setConn, initSt, logError,
      throwM, pureM, bytes_OKAY, bytes_FAIL, recvn, FAIL, OKAY, Host.detach, Host.autoclose,
      closeClear]

/-- Claim C8: for every sequence of DENT records returned by the server (each
name below 2^32 bytes, followed by a non-DENT terminating tag), list(path)
returns exactly the names with empty, "." and ".." filtered out, ordered by
the lexicographic sort pySorted, whose output is lexLe-sorted and a
permutation of its input; in particular, for records named a, ., b, .., and
the empty name the result is exactly [a, b]. -/
theorem c8_list_filters_and_sorts :
    (∀ l, (Host.pySorted l).Pairwise (fun a b => Host.lexLe a b = true)) ∧
      (∀ l, (Host.pySorted l).Perm l) ∧
      (∀ (ctx : Ctx) (path : List Nat) (ds : List Dent) (tail : List Nat),
        (∀ d ∈ ds, d.name.length < 4294967296) → 4 ≤ tail.length →
        tail.take 4 ≠ bytes "DENT" →
        (Host.list ctx path
            (initSt (bytes "OKAY" ++ (bytes "OKAY" ++ (encodeDents ds ++ tail))))).1 =
          .ok (some (Host.pySorted
            ((ds.map Dent.name).filter (fun n => !Host.skipName n))))) ∧
      (Host.list ctx0 (bytes "p")
          (initSt (bytes "OKAY" ++ bytes "OKAY" ++ encodeDents dents0 ++ bytes "DONE"))).1 =
        .ok (some [bytes "a", bytes "b"]) := by
  refine ⟨pySorted_pairwise, pySorted_perm, fun ctx path ds tail hname hlen htag => ?_, rfl⟩
  simp [Host.list, Host.with_transport, Host.transport, Host.send, adb_send, bindM,
    connSend, connRecvn, getConn, setConn, initSt, pureM, bytes_OKAY, recvn, FAIL, bytes_FAIL,
    Host.autoclose, closeClear]
  rw [listLoopM_spec ds tail _ _ _ hname hlen htag]

/-- Witness for C8 at the five-record stream with terminator DONE. -/
theorem c8_list_filters_and_sorts_witness :
    (Host.list ctx0 (bytes "q")
        (initSt (bytes "OKAY" ++ (bytes "OKAY" ++ (encodeDents dents0 ++ bytes "DONExy"))))).1 =
      .ok (some (Host.pySorted
        ((dents0.map Dent.name).filter (fun n => !Host.skipName n)))) :=
  c8_list_filters_and_sorts.2.2.1 ctx0 (bytes "q") dents0 (bytes "DONExy") (by decide)
    (by decide) (by decide)

/-- Counterexample to claim C9 as stated: on the script OKAY 0004 0001 the
first component of the pair returned by version() is the parsed integer 4
(the length field), not the protocol version 1. -/
theorem c9_version_first_component_is_four :
    okFst (Host.version (initSt (bytes "OKAY" ++ bytes "0004" ++ bytes "0001"))).1 = some 4 ∧
      okFst (Host.version (initSt (bytes "OKAY" ++ bytes "0004" ++ bytes "0001"))).1 ≠
        some 1 :=
  ⟨rfl, by decide⟩

/-- Claim C9 amended: version() sends host:version, and when the server
replies OKAY followed by the two 4-hex-digit fields 0004 then 0001 it returns
the pair of parsed integers (4, 1): the parsed length field 4 first, the
protocol version 1 as the second component. -/
theorem c9_version_scenario_returns_pair :
    (Host.version (initSt (bytes "OKAY" ++ bytes "0004" ++ bytes "0001"))).1 = .ok (4, 1) ∧
      (Host.version
          (initSt (bytes "OKAY" ++ bytes "0004" ++ bytes "0001"))).2.conn.map Conn.out =
        some (Message (bytes "host:version")) :=
  ⟨rfl, rfl⟩

/-- Claim C10: execute(argv) performs the transport-selection step twice, one
frame from the with-transport wrapper and a second identical frame from the
command body, before the exec: request, all on the same Connection: on the
OKAY OKAY OKAY script the returned Connection transcript is exactly two
identical host:transport frames followed by the exec: frame. -/
theorem c10_execute_sends_transport_twice (ctx : Ctx) (sh : List Nat → List Nat)
    (argv : List (List Nat)) (rest : List Nat) :
    (Host.execute ctx sh argv
          (initSt (bytes "OKAY" ++ bytes "OKAY" ++ bytes "OKAY" ++ rest))).1 =
        .ok (some ⟨rest,
          Message (bytes "host:transport:" ++ ctx.device) ++
            (Message (bytes "host:transport:" ++ ctx.device) ++
              Message (bytes "exec:" ++ Host.joinSpace (argv.map sh))),
          true⟩) ∧
      (Host.execute ctx sh argv
          (initSt (bytes "OKAY" ++ bytes "OKAY" ++ bytes "OKAY" ++ rest))).2.conn = none := by
  simp [Host.execute, Host.with_transport, Host.transport, Host.send, adb_send, bindM, connSend,
    connRecvn, getConn, setConn, initSt, logError, throwM, pureM, bytes_OKAY, bytes_FAIL, recvn,
    FAIL, OKAY, Host.detach, Host.autoclose, closeClear]
